import Mathlib

/-!
# DocBot frontend — verification of the spec's claims against the code

Shallow embedding of the relevant parts of `src/frontend/src/services/api.ts`
and `src/frontend/src/components/{ChatBox,ChatSidebar}.tsx`.

Text is embedded as `List Char` so that the chunk/line manipulations of the
SSE reader (`split`, `startsWith`, `replace`, `trim`) can be reasoned about
by structural induction.
-/

set_option autoImplicit false

/-- Text, embedded as a list of characters. -/
abbrev Str := List Char

/-- The fixed payload marker `"data: "` of the SSE reader. -/
def dataMarker : Str := "data: ".toList

/-- The termination sentinel `"[DONE]"` of the SSE reader. -/
def doneTok : Str := "[DONE]".toList

/-- Whitespace test used by `trimStr` (models JavaScript `String.prototype.trim`
on the whitespace characters that occur in SSE streams). -/
def isWS (c : Char) : Bool := c.isWhitespace

/-- `s.trim()`: strip whitespace from both ends. -/
def trimStr (s : Str) : Str :=
  ((s.dropWhile isWS).reverse.dropWhile isWS).reverse

/-- JavaScript `s.replace(pat, "")` with a string pattern: remove the first
occurrence of `pat` from `s` (no occurrence: `s` unchanged). -/
def replaceFirst (pat : Str) : Str → Str
  | [] => []
  | c :: cs =>
    if pat.isPrefixOf (c :: cs) then (c :: cs).drop pat.length
    else c :: replaceFirst pat cs

/-- JavaScript `chunk.split("\n")` for the single-character separator used by
`sendMessageStream`: `""` splits to `[""]`, separators at the ends produce
empty pieces. -/
def splitOnChar (sep : Char) : Str → List Str
  | [] => [[]]
  | c :: cs =>
    if c = sep then [] :: splitOnChar sep cs
    else
      match splitOnChar sep cs with
      | [] => [[c]]
      | l :: ls => (c :: l) :: ls

/-- `line.startsWith("data: ")`. -/
def isDataLine (l : Str) : Bool := dataMarker.isPrefixOf l

/-- `line.replace("data: ", "").trim()`. -/
def extractData (l : Str) : Str := trimStr (replaceFirst dataMarker l)

/-- The inner `for (const line of lines)` loop of `sendMessageStream`:
returns the payloads handed to `onMessage` and whether the `[DONE]` sentinel
was hit (which makes the whole function return). -/
def runLines : List Str → List Str × Bool
  | [] => ([], false)
  | l :: ls =>
    if isDataLine l then
      let d := extractData l
      if d = doneTok then ([], true)
      else
        let r := runLines ls
        (d :: r.1, r.2)
    else runLines ls

/-- The `while (true)` read loop of `sendMessageStream` over the decoded
chunks delivered by `reader.read()`: each chunk is split on `"\n"` and its
lines processed; a `[DONE]` sentinel returns from the function, so later
chunks are not read. Returns the payload sequence forwarded to `onMessage`. -/
def sseRun : List Str → List Str
  | [] => []
  | c :: cs =>
    let r := runLines (splitOnChar '\n' c)
    if r.2 then r.1 else r.1 ++ sseRun cs

/-- `splitOnChar` never returns the empty list. -/
theorem splitOnChar_ne_nil (sep : Char) : ∀ s : Str, splitOnChar sep s ≠ [] := by
  intro s
  cases s with
  | nil => simp [splitOnChar]
  | cons c cs =>
    simp only [splitOnChar]
    by_cases h : c = sep
    · simp [h]
    · simp only [if_neg h]
      cases splitOnChar sep cs <;> simp

/-- Splitting distributes over an explicit separator occurrence. -/
theorem splitOnChar_append_sep (sep : Char) (xs ys : Str) :
    splitOnChar sep (xs ++ sep :: ys) = splitOnChar sep xs ++ splitOnChar sep ys := by
  induction xs with
  | nil => simp [splitOnChar]
  | cons c cs ih =>
    by_cases h : c = sep
    · simp [splitOnChar, h, ih]
    · simp only [List.cons_append, splitOnChar, if_neg h, List.append_eq]
      rw [ih]
      cases hs : splitOnChar sep cs with
      | nil => exact absurd hs (splitOnChar_ne_nil sep cs)
      | cons l ls => simp

/-- Processing a concatenation of line lists: the first part's sentinel flag
gates the second. -/
theorem runLines_append (xs ys : List Str) :
    runLines (xs ++ ys) =
      if (runLines xs).2 then runLines xs
      else ((runLines xs).1 ++ (runLines ys).1, (runLines ys).2) := by
  induction xs with
  | nil => simp [runLines]
  | cons l ls ih =>
    by_cases hdl : isDataLine l
    · by_cases hs : extractData l = doneTok
      · simp [runLines, hdl, hs]
      · by_cases hf : (runLines ls).2 <;>
          simp [runLines, hdl, hs, ih, hf]
    · simp [runLines, hdl, ih]

/-- `sseRun` on a single chunk is the payload part of its line run. -/
theorem sseRun_singleton (c : Str) :
    sseRun [c] = (runLines (splitOnChar '\n' c)).1 := by
  simp only [sseRun]
  by_cases h : (runLines (splitOnChar '\n' c)).2 <;> simp [h]

/-- C1, counterexample: the byte stream `"data: x\n"` delivered whole forwards
the payload `"x"`, but the same bytes delivered as the two chunks `"data"` and
`": x\n"` forward nothing — the parser does not accumulate partial lines, so
the forwarded sequence is not delivery-independent. -/
theorem c1_counterexample :
    "data".toList ++ ": x\n".toList = "data: x\n".toList ∧
    sseRun ["data: x\n".toList] = ["x".toList] ∧
    sseRun ["data".toList, ": x\n".toList] = [] := by
  refine ⟨rfl, ?_, ?_⟩ <;> rfl

/-- A list whose last element is `x` is its `dropLast` followed by `x`. -/
theorem dropLast_concat_of_getLast {x : Char} :
    ∀ c : Str, c.getLast? = some x → c.dropLast ++ [x] = c
  | [], h => by simp at h
  | [a], h => by
      simp only [List.getLast?_singleton, Option.some.injEq] at h
      simp [h]
  | a :: b :: t, h => by
      have ih := dropLast_concat_of_getLast (b :: t) (by simpa using h)
      simpa using congrArg (fun l => a :: l) ih

/-- Processing the single empty line produced by a trailing newline emits
nothing and does not stop the stream. -/
theorem runLines_nil_line : runLines [([] : Str)] = ([], false) := rfl

/-- Line-aligned deliveries agree with single-chunk delivery. -/
theorem sseRun_join : ∀ chunks : List Str,
    (∀ c ∈ chunks, c.getLast? = some '\n') →
    sseRun chunks = (runLines (splitOnChar '\n' chunks.flatten)).1
  | [], _ => rfl
  | c :: cs, h => by
    have hc : c.getLast? = some '\n' := h c (List.mem_cons_self c cs)
    have ha : c.dropLast ++ ['\n'] = c := dropLast_concat_of_getLast c hc
    have ih := sseRun_join cs (fun x hx => h x (List.mem_cons_of_mem c hx))
    have hsplit : splitOnChar '\n' c = splitOnChar '\n' c.dropLast ++ [[]] := by
      conv_lhs => rw [← ha]
      rw [show (c.dropLast ++ ['\n'] : Str) = c.dropLast ++ '\n' :: ([] : Str) from rfl]
      rw [splitOnChar_append_sep]
      rfl
    have hjoin : (c :: cs).flatten = c.dropLast ++ '\n' :: cs.flatten := by
      conv_lhs => rw [List.flatten_cons, ← ha]
      rw [List.append_assoc]
      rfl
    simp only [sseRun, hsplit, hjoin, splitOnChar_append_sep, runLines_append,
      runLines_nil_line, ih]
    by_cases hp : (runLines (splitOnChar '\n' c.dropLast)).2 <;> simp [hp]

/-- C1, amended: when every chunk of the delivery ends at a line boundary
(each decoded chunk ends with `'\n'`), the payload sequence forwarded to
`onMessage` equals the one forwarded when the whole stream arrives as a
single chunk — the parser is delivery-independent only for line-aligned
chunkings, since it does not buffer partial lines across chunks. -/
theorem c1_line_aligned_invariance (chunks : List Str)
    (h : ∀ c ∈ chunks, c.getLast? = some '\n') :
    sseRun chunks = sseRun [chunks.flatten] := by
  rw [sseRun_singleton]
  exact sseRun_join chunks h

/-- C1, witness for the amended theorem at a concrete two-chunk delivery. -/
theorem c1_line_aligned_invariance_witness :
    sseRun ["data: a\n".toList, "data: b\n".toList] =
      sseRun [(["data: a\n".toList, "data: b\n".toList] : List Str).flatten] :=
  c1_line_aligned_invariance _ (by decide)

/-- C2, counterexample: the payload line `"data:  x"` minus the `"data: "`
marker is `" x"`, but the code forwards the trimmed `"x"` — payload lines are
not forwarded verbatim after removing the marker. -/
theorem c2_counterexample :
    sseRun ["data:  x\n".toList] = ["x".toList] ∧
    "x".toList ≠ " x".toList := ⟨rfl, by decide⟩

/-- The payloads produced by the line loop are exactly the `"data: "`-marked
lines, in order, each with the marker removed and the result trimmed, cut off
at the first line whose content is the sentinel. -/
theorem runLines_fst_characterization (ls : List Str) :
    (runLines ls).1 =
      ((ls.filter isDataLine).map extractData).takeWhile (fun d => d != doneTok) := by
  induction ls with
  | nil => rfl
  | cons l t ih =>
    by_cases hdl : isDataLine l
    · by_cases hs : extractData l = doneTok
      · simp [runLines, List.filter, hdl, hs, List.takeWhile]
      · simp [runLines, List.filter, hdl, hs, ih, List.takeWhile]
    · simp [runLines, List.filter, hdl, ih]

/-- C2, amended: for every chunk, exactly the lines with the `"data: "` marker
are treated as payload (unmarked lines are never forwarded), in stream order;
each forwarded payload is the line with the marker removed and surrounding
whitespace trimmed (not verbatim), and forwarding stops at the sentinel. -/
theorem c2_payload_extraction (chunk : Str) :
    (runLines (splitOnChar '\n' chunk)).1 =
      (((splitOnChar '\n' chunk).filter isDataLine).map extractData).takeWhile
        (fun d => d != doneTok) :=
  runLines_fst_characterization (splitOnChar '\n' chunk)

/-- Joining lines with `'\n'`: the inverse of `splitOnChar '\n'` on
newline-free lines (used to state where line boundaries fall in a chunk). -/
def joinLines : List Str → Str
  | [] => []
  | [l] => l
  | l :: l' :: ls => l ++ '\n' :: joinLines (l' :: ls)

/-- A separator-free string splits to itself alone. -/
theorem splitOnChar_eq_single {sep : Char} :
    ∀ s : Str, sep ∉ s → splitOnChar sep s = [s]
  | [], _ => rfl
  | c :: cs, h => by
    have hc : ¬c = sep := fun e => h (e ▸ List.mem_cons_self c cs)
    have ih := splitOnChar_eq_single cs (fun m => h (List.mem_cons_of_mem c m))
    simp [splitOnChar, hc, ih]

/-- Splitting undoes `joinLines` on nonempty lists of newline-free lines. -/
theorem splitOnChar_joinLines :
    ∀ ps : List Str, ps ≠ [] → (∀ p ∈ ps, '\n' ∉ p) →
      splitOnChar '\n' (joinLines ps) = ps
  | [], h, _ => absurd rfl h
  | [l], _, hp => splitOnChar_eq_single l (hp l (List.mem_cons_self l []))
  | l :: l' :: ls, _, hp => by
    have ih := splitOnChar_joinLines (l' :: ls) (by simp)
      (fun p m => hp p (List.mem_cons_of_mem l m))
    show splitOnChar '\n' (l ++ '\n' :: joinLines (l' :: ls)) = _
    rw [splitOnChar_append_sep, splitOnChar_eq_single l (hp l (List.mem_cons_self l _)), ih]
    rfl

/-- C3: once a payload line whose content equals the `[DONE]` sentinel is
processed, `sendMessageStream` returns — nothing after it, neither later
lines of the same chunk (`post`) nor later chunks (`rest`), is ever
forwarded; the forwarded payloads are exactly those of the lines before the
sentinel. -/
theorem c3_sentinel_terminates (pre post : List Str) (l : Str) (rest : List Str)
    (hpre : ∀ p ∈ pre, '\n' ∉ p) (hpost : ∀ p ∈ post, '\n' ∉ p) (hl : '\n' ∉ l)
    (hdl : isDataLine l = true) (hsent : extractData l = doneTok) :
    sseRun (joinLines (pre ++ l :: post) :: rest) = (runLines pre).1 := by
  have hsplit : splitOnChar '\n' (joinLines (pre ++ l :: post)) = pre ++ l :: post := by
    apply splitOnChar_joinLines
    · simp
    · intro p hp
      rcases List.mem_append.1 hp with h | h
      · exact hpre p h
      · rcases List.mem_cons.1 h with rfl | h
        · exact hl
        · exact hpost p h
  have hrl : runLines (l :: post) = ([], true) := by simp [runLines, hdl, hsent]
  simp only [sseRun, hsplit, runLines_append, hrl]
  by_cases hp : (runLines pre).2 <;> simp [hp]

/-- C3, witness: a stream whose second payload line is the sentinel forwards
only the first payload, ignoring a later line and a later chunk. -/
theorem c3_sentinel_terminates_witness :
    sseRun (joinLines (["data: a".toList] ++ "data: [DONE]".toList :: ["data: z".toList]) ::
        ["data: q\n".toList]) =
      (runLines ["data: a".toList]).1 :=
  c3_sentinel_terminates _ _ _ _ (by decide) (by decide) (by decide) (by decide) (by decide)

/-- One result of `await reader.read()` in the `while (true)` loop: a decoded
chunk, the end of the stream (`done = true`), or a thrown read error. -/
inductive ReadEvent where
  | chunk (s : Str)
  | eofEv
  | failEv

/-- How the `try` block of `sendMessageStream` is exited: the loop's `break`
on end of stream, the early `return` on the sentinel, an exception from
`reader.read()`, or an exception raised by the `onMessage` callback. -/
inductive ExitKind where
  | normalEnd
  | sentinelReturn
  | readError
  | callbackError
deriving DecidableEq

/-- Observable actions of `sendMessageStream` once the reader is obtained:
a successful `onMessage(token)` delivery, or `reader.releaseLock()`. -/
inductive StreamAct where
  | emit (t : Str)
  | release
deriving DecidableEq

/-- The `for` loop over a chunk's lines, with a callback that may throw
(`cb d = true` models `onMessage(d)` raising): the tokens delivered and an
early exit when the sentinel or a callback exception occurs. -/
def emitLines (cb : Str → Bool) : List Str → List StreamAct × Option ExitKind
  | [] => ([], none)
  | l :: ls =>
    if isDataLine l then
      let d := extractData l
      if d = doneTok then ([], some ExitKind.sentinelReturn)
      else if cb d then ([], some ExitKind.callbackError)
      else
        let r := emitLines cb ls
        (StreamAct.emit d :: r.1, r.2)
    else emitLines cb ls

/-- The body of the `try` block: the read loop, processing read results until
end of stream, a read error, the sentinel, or a callback error. -/
def tryBody (cb : Str → Bool) : List ReadEvent → List StreamAct × ExitKind
  | [] => ([], ExitKind.normalEnd)
  | ReadEvent.eofEv :: _ => ([], ExitKind.normalEnd)
  | ReadEvent.failEv :: _ => ([], ExitKind.readError)
  | ReadEvent.chunk s :: es =>
    match emitLines cb (splitOnChar '\n' s) with
    | (as, some k) => (as, k)
    | (as, none) =>
      let r := tryBody cb es
      (as ++ r.1, r.2)

/-- `sendMessageStream` from `getReader()` on: the `try/finally` wraps the
read loop, so `reader.releaseLock()` runs after the body on every exit. -/
def sendMessageStreamRun (cb : Str → Bool) (es : List ReadEvent) :
    List StreamAct × ExitKind :=
  let r := tryBody cb es
  (r.1 ++ [StreamAct.release], r.2)

/-- The line loop never releases the reader itself. -/
theorem emitLines_no_release (cb : Str → Bool) :
    ∀ ls : List Str, StreamAct.release ∉ (emitLines cb ls).1
  | [] => by simp [emitLines]
  | l :: ls => by
    have ih := emitLines_no_release cb ls
    by_cases hdl : isDataLine l
    · by_cases hs : extractData l = doneTok
      · simp [emitLines, hdl, hs]
      · by_cases hcb : cb (extractData l)
        · simp [emitLines, hdl, hs, hcb]
        · simp [emitLines, hdl, hs, hcb, ih]
    · simp [emitLines, hdl, ih]

/-- The read loop never releases the reader itself. -/
theorem tryBody_no_release (cb : Str → Bool) :
    ∀ es : List ReadEvent, StreamAct.release ∉ (tryBody cb es).1
  | [] => by simp [tryBody]
  | ReadEvent.eofEv :: _ => by simp [tryBody]
  | ReadEvent.failEv :: _ => by simp [tryBody]
  | ReadEvent.chunk s :: es => by
    have ih := tryBody_no_release cb es
    have hnr := emitLines_no_release cb (splitOnChar '\n' s)
    cases hm : emitLines cb (splitOnChar '\n' s) with
    | mk as k =>
      rw [hm] at hnr
      cases k with
      | none => simp [tryBody, hm, List.mem_append, hnr, ih]
      | some k' => simpa [tryBody, hm] using hnr

/-- C4: whatever read results arrive and whether or not the callback throws,
every run of `sendMessageStream` — ending normally, via the `[DONE]` early
return, or via an exception from `reader.read()` or `onMessage` — performs
`releaseLock` as its final action, and only the `finally` clause does so. -/
theorem c4_reader_released_on_all_paths (cb : Str → Bool) (es : List ReadEvent) :
    (sendMessageStreamRun cb es).1.getLast? = some StreamAct.release ∧
    StreamAct.release ∉ (tryBody cb es).1 := by
  refine ⟨?_, tryBody_no_release cb es⟩
  simp [sendMessageStreamRun]

/-- Browser `localStorage`, as key/value pairs (most recent entry first). -/
abbrev LocalStore := List (String × String)

/-- The storage key used throughout `api.ts`. -/
def accessTokenKey : String := "access_token"

/-- `localStorage.getItem(k)` (`null` becomes `none`). -/
def lsGetItem (ls : LocalStore) (k : String) : Option String :=
  match ls.find? (fun kv => kv.1 == k) with
  | some kv => some kv.2
  | none => none

/-- `localStorage.removeItem(k)`. -/
def lsRemoveItem (ls : LocalStore) (k : String) : LocalStore :=
  ls.filter (fun kv => kv.1 != k)

/-- `localStorage.setItem(k, v)`. -/
def lsSetItem (ls : LocalStore) (k v : String) : LocalStore :=
  (k, v) :: lsRemoveItem ls k

/-- A removed key is no longer readable. -/
theorem lsGetItem_lsRemoveItem (ls : LocalStore) (k : String) :
    lsGetItem (lsRemoveItem ls k) k = none := by
  have hf : (lsRemoveItem ls k).find? (fun kv => kv.1 == k) = none := by
    rw [List.find?_eq_none]
    intro x hx
    have hm := List.of_mem_filter hx
    simpa using hm
  simp [lsGetItem, hf]

/-- A stored key reads back its value. -/
theorem lsGetItem_lsSetItem (ls : LocalStore) (k v : String) :
    lsGetItem (lsSetItem ls k v) k = some v := by
  simp [lsSetItem, lsGetItem, List.find?]

/-- `error.response` of a failed axios request, when the server answered. -/
structure AxiosErrorResp where
  status : Nat
deriving DecidableEq

/-- The error seen by the response interceptor: `error.response` is absent
for network-level failures (`error.response?.status` is then undefined). -/
structure AxiosFailure where
  response : Option AxiosErrorResp
deriving DecidableEq

/-- The interceptor's result: its error handler ends in
`Promise.reject(error)`. -/
inductive InterceptorResult where
  | reject (e : AxiosFailure)
deriving DecidableEq

/-- The response interceptor's error handler: on a 401 response it removes
the stored access token (the `typeof window !== "undefined"` guard holds in
the browser environment modelled here), then re-rejects the error. -/
def onResponseError (e : AxiosFailure) (ls : LocalStore) :
    LocalStore × InterceptorResult :=
  let ls' :=
    match e.response with
    | some r => if r.status = 401 then lsRemoveItem ls accessTokenKey else ls
    | none => ls
  (ls', InterceptorResult.reject e)

/-- C5: a failed request is always propagated (the handler re-rejects the
error, never swallowing it); the stored `"access_token"` is cleared exactly
when the failure carries HTTP status 401, and for any other failure the
store is left entirely unchanged. -/
theorem c5_interceptor_propagates_and_clears_on_401
    (e : AxiosFailure) (ls : LocalStore) :
    (onResponseError e ls).2 = InterceptorResult.reject e ∧
    lsGetItem (onResponseError e ls).1 accessTokenKey =
      (if e.response.map (fun r => r.status) = some 401 then none
       else lsGetItem ls accessTokenKey) ∧
    (e.response.map (fun r => r.status) ≠ some 401 →
      (onResponseError e ls).1 = ls) := by
  refine ⟨rfl, ?_, ?_⟩
  · cases hr : e.response with
    | none => simp [onResponseError, hr]
    | some r =>
      by_cases h4 : r.status = 401
      · simp [onResponseError, hr, h4, lsGetItem_lsRemoveItem]
      · simp [onResponseError, hr, h4]
  · intro hne
    cases hr : e.response with
    | none => simp [onResponseError, hr]
    | some r =>
      by_cases h4 : r.status = 401
      · exact absurd (by simp [hr, h4]) hne
      · simp [onResponseError, hr, h4]

/-- C5, witness: a 500 failure leaves the store untouched. -/
theorem c5_interceptor_witness :
    (onResponseError ⟨some ⟨500⟩⟩ [(accessTokenKey, "tok")]).1 =
      [(accessTokenKey, "tok")] :=
  (c5_interceptor_propagates_and_clears_on_401 ⟨some ⟨500⟩⟩
    [(accessTokenKey, "tok")]).2.2 (by decide)

/-- Modelled from the spec: the chat-session client methods of
`services/api.ts` are not among the provided sources (only their callers in
`ChatSidebar.tsx` and `ChatBox.tsx` are); the spec describes "a two-way
data-binding of chat session state to a remote CRUD-style sessions API", so
the API service object is modelled as exposing the five session CRUD
operations. -/
def sessionApiExposed : List String :=
  ["getChatSessions", "getChatSession", "createChatSession",
   "updateChatSession", "deleteChatSession"]

/-- Session operations invoked by `ChatSidebar.tsx`: `loadSessions` calls
`api.getChatSessions()` and `handleDeleteSession` calls
`api.deleteChatSession(sessionId)`. -/
def chatSidebarSessionCalls : List String :=
  ["getChatSessions", "deleteChatSession"]

/-- Session operations invoked by `ChatBox.tsx`: `loadSession` calls
`api.getChatSession(id)`, `saveSession` calls `api.updateChatSession` and
`api.createChatSession`. -/
def chatBoxSessionCalls : List String :=
  ["getChatSession", "updateChatSession", "createChatSession"]

/-- A sample invoked operation, for the witness. -/
def getChatSessionsName : String := "getChatSessions"

/-- C6: every chat-session operation invoked by the sidebar or the chat box
resolves to an operation exposed by the API service object. -/
theorem c6_session_crud_exposed :
    ∀ f ∈ chatSidebarSessionCalls ++ chatBoxSessionCalls, f ∈ sessionApiExposed := by
  decide

/-- C6, witness at a concrete operation. -/
theorem c6_session_crud_exposed_witness :
    getChatSessionsName ∈ sessionApiExposed :=
  c6_session_crud_exposed getChatSessionsName (by decide)

/-- The auth-response fields consumed by the token-storage logic (the `user`
payload is not read by it). -/
structure AuthResponseData where
  access_token : String
  token_type : String
deriving DecidableEq

/-- `register`: `if (response.data.access_token)` — the token is stored when
truthy, i.e. a nonempty string. -/
def registerStoreEffect (ls : LocalStore) (resp : AuthResponseData) : LocalStore :=
  if resp.access_token != "" then lsSetItem ls accessTokenKey resp.access_token
  else ls

/-- `login`: same storage logic as `register`. -/
def loginStoreEffect (ls : LocalStore) (resp : AuthResponseData) : LocalStore :=
  if resp.access_token != "" then lsSetItem ls accessTokenKey resp.access_token
  else ls

/-- `refreshToken`: same storage logic as `register`. -/
def refreshTokenStoreEffect (ls : LocalStore) (resp : AuthResponseData) : LocalStore :=
  if resp.access_token != "" then lsSetItem ls accessTokenKey resp.access_token
  else ls

/-- `logout`: after the server call, the key is removed. -/
def logoutStoreEffect (ls : LocalStore) : LocalStore :=
  lsRemoveItem ls accessTokenKey

/-- C8: after a successful `login`, `register`, or `refreshToken` whose
response carries a nonempty `access_token`, exactly that token is stored
under `"access_token"`; after `logout` completes its server call, the key is
gone from the store. -/
theorem c8_token_storage (ls : LocalStore) (resp : AuthResponseData)
    (h : resp.access_token ≠ "") :
    lsGetItem (registerStoreEffect ls resp) accessTokenKey = some resp.access_token ∧
    lsGetItem (loginStoreEffect ls resp) accessTokenKey = some resp.access_token ∧
    lsGetItem (refreshTokenStoreEffect ls resp) accessTokenKey = some resp.access_token ∧
    lsGetItem (logoutStoreEffect ls) accessTokenKey = none := by
  have hb : (resp.access_token != "") = true := by simpa using h
  refine ⟨?_, ?_, ?_, lsGetItem_lsRemoveItem ls accessTokenKey⟩ <;>
    simp [registerStoreEffect, loginStoreEffect, refreshTokenStoreEffect, hb,
      lsGetItem_lsSetItem]

/-- C8, witness at a concrete nonempty token. -/
theorem c8_token_storage_witness :
    lsGetItem (loginStoreEffect [] ⟨"tok", "bearer"⟩) accessTokenKey = some "tok" :=
  (c8_token_storage [] ⟨"tok", "bearer"⟩ (by decide)).2.1

/-- The default API base URL of `api.ts` (`NEXT_PUBLIC_API_URL` unset). -/
def apiBaseUrl : Str := "http://127.0.0.1:8000".toList

/-- An uppercase hexadecimal digit, as `encodeURIComponent` produces. -/
def hexDigit (n : Nat) : Char :=
  if n < 10 then Char.ofNat ('0'.toNat + n) else Char.ofNat ('A'.toNat + (n - 10))

/-- The UTF-8 bytes of a character. -/
def utf8Bytes (c : Char) : List Nat :=
  let n := c.toNat
  if n < 128 then [n]
  else if n < 2048 then [192 + n / 64, 128 + n % 64]
  else if n < 65536 then [224 + n / 4096, 128 + n / 64 % 64, 128 + n % 64]
  else [240 + n / 262144, 128 + n / 4096 % 64, 128 + n / 64 % 64, 128 + n % 64]

/-- Characters `encodeURIComponent` leaves unescaped (ECMA-262:
letters, digits, and `- _ . ! ~ * ' ( )`). -/
def ecuUnescaped (c : Char) : Bool :=
  c.isAlpha || c.isDigit ||
    (c == '-' || c == '_' || c == '.' || c == '!' || c == '~' || c == '*' ||
     c == '\'' || c == '(' || c == ')')

/-- `encodeURIComponent(s)`: unescaped characters pass through, every other
character becomes the percent-encoding of its UTF-8 bytes. -/
def encodeURIComponentStr (s : Str) : Str :=
  s.flatMap fun c =>
    if ecuUnescaped c then [c]
    else (utf8Bytes c).flatMap fun b => ['%', hexDigit (b / 16), hexDigit (b % 16)]

/-- HTTP method of the assembled request. -/
inductive HttpMethod where
  | get
  | post
deriving DecidableEq

/-- An uploaded image file (contents abstract). -/
structure ImageFile where
  name : String
deriving DecidableEq

/-- One entry appended to the `FormData`. -/
inductive FormPart where
  | textField (k : Str) (v : Str)
  | fileField (k : Str) (f : ImageFile)
deriving DecidableEq

/-- The request `sendMessageStream` hands to `fetch`. -/
structure StreamRequest where
  url : Str
  method : HttpMethod
  acceptEventStream : Bool
  formBody : Option (List FormPart)
deriving DecidableEq

/-- The chat-stream path both request shapes target. -/
def chatStreamPath : Str := "/api/chat/stream".toList

/-- The FormData key of the query text. -/
def queryKey : Str := "query".toList

/-- The FormData key of the image. -/
def imageKey : Str := "image".toList

/-- Request assembly of `sendMessageStream`: with an image, a POST to
`${API_BASE_URL}/api/chat/stream` whose multipart form data carries the
query text and the image; without, a GET to
`${API_BASE_URL}/api/chat/stream?query=${encodeURIComponent(query)}`.
Both set `Accept: text/event-stream`. -/
def buildStreamRequest (query : Str) (imageFile : Option ImageFile) :
    StreamRequest :=
  match imageFile with
  | some f =>
    { url := apiBaseUrl ++ "/api/chat/stream".toList
      method := HttpMethod.post
      acceptEventStream := true
      formBody := some [FormPart.textField queryKey query,
                        FormPart.fileField imageKey f] }
  | none =>
    { url := apiBaseUrl ++ "/api/chat/stream?query=".toList ++
        encodeURIComponentStr query
      method := HttpMethod.get
      acceptEventStream := true
      formBody := none }

/-- The path a URL under the API base targets: what follows the base, up to
the query string. -/
def urlPath (u : Str) : Str :=
  (u.drop apiBaseUrl.length).takeWhile (fun c => c != '?')

/-- C7: both shapes of `sendMessageStream` request target the path
`/api/chat/stream`; with an image it is a POST whose form data holds the
query text and the image, without one it is a GET whose query string is the
URL-encoded query. -/
theorem c7_stream_request_dispatch (query : Str) (imageFile : Option ImageFile) :
    urlPath (buildStreamRequest query imageFile).url = chatStreamPath ∧
    (buildStreamRequest query imageFile).acceptEventStream = true ∧
    (match imageFile with
     | some f =>
        (buildStreamRequest query imageFile).method = HttpMethod.post ∧
        (buildStreamRequest query imageFile).formBody =
          some [FormPart.textField queryKey query, FormPart.fileField imageKey f]
     | none =>
        (buildStreamRequest query imageFile).method = HttpMethod.get ∧
        (buildStreamRequest query imageFile).url =
          apiBaseUrl ++ "/api/chat/stream?query=".toList ++
            encodeURIComponentStr query ∧
        (buildStreamRequest query imageFile).formBody = none) := by
  cases imageFile with
  | some f => exact ⟨rfl, rfl, rfl, rfl⟩
  | none => exact ⟨rfl, rfl, rfl, rfl, rfl⟩

/-- A chat message held in `ChatBox` state (the fields read by `saveSession`
and `generateTitle`; the `id` string and `Date` timestamp are not read by
them). -/
structure Message where
  text : Str
  isBot : Bool
  image : Option Str
deriving DecidableEq

/-- `generateTitle` of `ChatBox.tsx`: filter to non-bot messages whose
trimmed text is truthy; `"New Chat"` when there are none, otherwise the
first one's text, cut to its first 40 characters plus `"..."` when longer
than 40. -/
def generateTitle (msgs : List Message) : Str :=
  let userMessages := msgs.filter fun m => !m.isBot && !(trimStr m.text).isEmpty
  match userMessages with
  | [] => "New Chat".toList
  | m :: _ =>
    if m.text.length > 40 then m.text.take 40 ++ "...".toList else m.text

/-- A remote session call issued by `saveSession`. -/
inductive SessionOp where
  | createSession (title : Str)
  | updateSession (id : String) (msgs : List Message)
deriving DecidableEq

/-- `saveSession` of `ChatBox.tsx`: it reads the stored token and returns at
once when the token is falsy (absent or empty); otherwise it updates the
current session, or — without a current session id — creates one titled by
`generateTitle` and then fills it, adopting the server-assigned id
`srvNewId` as the new `currentSessionId`. Returns the session calls issued,
in order, and the resulting `currentSessionId`. -/
def saveSession (token : Option String) (currentSessionId : Option String)
    (updatedMessages : List Message) (srvNewId : String) :
    List SessionOp × Option String :=
  match token with
  | none => ([], currentSessionId)
  | some t =>
    if t == "" then ([], currentSessionId)
    else
      match currentSessionId with
      | some sid => ([SessionOp.updateSession sid updatedMessages], some sid)
      | none =>
        ([SessionOp.createSession (generateTitle updatedMessages),
          SessionOp.updateSession srvNewId updatedMessages], some srvNewId)

/-- C9: when local storage holds no `"access_token"`, `saveSession` issues
no session API call and leaves `currentSessionId` unchanged. -/
theorem c9_unauthenticated_never_saves (store : LocalStore)
    (csid : Option String) (msgs : List Message) (srvNewId : String)
    (h : lsGetItem store accessTokenKey = none) :
    saveSession (lsGetItem store accessTokenKey) csid msgs srvNewId = ([], csid) := by
  rw [h]
  rfl

/-- C9, witness: the empty store holds no token, and nothing is saved. -/
theorem c9_unauthenticated_never_saves_witness :
    saveSession (lsGetItem [] accessTokenKey) (some "s1") [] "n1" = ([], some "s1") :=
  c9_unauthenticated_never_saves [] (some "s1") [] "n1" rfl

/-- C10: `generateTitle` returns `"New Chat"` exactly when no non-bot
message has nonempty trimmed text; otherwise it returns the first such
message's text unchanged when that text has at most 40 characters, and its
first 40 characters followed by `"..."` when longer — so the title never
exceeds 43 characters. -/
theorem c10_generate_title_shape (msgs : List Message) :
    (generateTitle msgs).length ≤ 43 ∧
    (match msgs.find? (fun m => !m.isBot && !(trimStr m.text).isEmpty) with
     | none => generateTitle msgs = "New Chat".toList
     | some m =>
        generateTitle msgs =
          (if m.text.length > 40 then m.text.take 40 ++ "...".toList
           else m.text)) := by
  rw [← List.filter_head?]
  cases hfl : msgs.filter (fun m => !m.isBot && !(trimStr m.text).isEmpty) with
  | nil =>
    constructor
    · simp [generateTitle, hfl]
    · simp [generateTitle, hfl]
  | cons m t =>
    constructor
    · by_cases hlen : m.text.length > 40
      · simp only [generateTitle, hfl, if_pos hlen, List.length_append,
          List.length_take]
        have h3 : ("...".toList : Str).length = 3 := rfl
        rw [h3]
        omega
      · simp only [generateTitle, hfl, if_neg hlen]
        omega
    · simp [generateTitle, hfl]
